import Mathlib

/-!
# Key derivation and signing-algorithm selection (`crypto/algorithm.go`)

A shallow embedding of the Go package `crypto` of the repository:

* `SupportedAlgorithms`, `EthSecp256k1Options` — what is advertised to the keyring;
* `DeriveKey` — dispatch on the algorithm tag;
* `EthermintKeygenFunc` — wrapping of raw bytes into a typed private key;
* `DeriveSecp256k1` — the Ethereum-compatible derivation.

Conventions of the embedding.

* A Go `[]byte` is a `List` of bytes; the `nil` slice is the empty list (the code never
  compares a slice with `nil`, and `len`, `append` and slicing do not tell them apart).
* A Go result `(v, err)` is a pair whose second component is `none` for a `nil` error.
* Functions of imported packages (`bip39`, `crypto/hmac` with `crypto/sha512`, the base
  keyring's `StdDeriveKey`, go-ethereum's `ToECDSA` and `FromECDSA`) are parameters of the
  embedding, collected in `Primitives` and `Curve`.
-/

namespace crypto

/-! ## Data model -/

/-- One octet. -/
abbrev Byte := Fin 256

/-- Go `[]byte`. -/
abbrev Bytes := List Byte

/-- Go `error` values: created from a message (`errors.New`, `fmt.Errorf`) or by wrapping a
cause with a message (`errors.Wrap` of `github.com/pkg/errors`). -/
inductive Error where
  | new (msg : String) : Error
  | wrap (cause : Error) (msg : String) : Error
  deriving DecidableEq, Repr

/-- The `Error()` text: a wrapped error prints its message, a colon, and the cause. -/
def Error.message : Error → String
  | Error.new msg => msg
  | Error.wrap cause msg => msg ++ ": " ++ cause.message

/-- The cause chain of an error reaches `target` (what `errors.Cause` / `errors.Is` follow). -/
def Error.wraps : Error → Error → Bool
  | Error.new msg, target => decide (Error.new msg = target)
  | Error.wrap cause msg, target =>
      decide (Error.wrap cause msg = target) || cause.wraps target

/-- Go `errors.Wrap(err, message)`: `nil` stays `nil`, otherwise the cause is annotated. -/
def errors.Wrap (err : Option Error) (message : String) : Option Error :=
  match err with
  | none => none
  | some e => some (Error.wrap e message)

/-- Go `[]byte(s)` for a string literal: its characters as octets. -/
def stringBytes (s : String) : Bytes := s.toList.map (fun c => Fin.ofNat c.toNat)

/-- Type `keyring.SigningAlgo`, a string type. -/
abbrev SigningAlgo := String

/-- Constant `keyring.Secp256k1` of the base keyring, the standard tag. -/
def keyring.Secp256k1 : SigningAlgo := "secp256k1"

/-- Error value `keyring.ErrUnsupportedSigningAlgo` of the base keyring. -/
def keyring.ErrUnsupportedSigningAlgo : Error := Error.new "unsupported signing algo"

/-- The returned error is the unsupported-algorithm error: it is not `nil` and its cause chain
reaches `keyring.ErrUnsupportedSigningAlgo`. -/
def isUnsupportedSigningAlgo (err : Option Error) : Bool :=
  match err with
  | none => false
  | some e => e.wraps keyring.ErrUnsupportedSigningAlgo

/-- Constant `EthSecp256k1`: the ECDSA secp256k1 used on Ethereum. -/
def EthSecp256k1 : SigningAlgo := "eth_secp256k1"

/-- Variable `SupportedAlgorithms`: the list of signing algorithms used on Ethermint. -/
def SupportedAlgorithms : List SigningAlgo := [EthSecp256k1, keyring.Secp256k1]

/-- Type `PrivKeySecp256k1`, declared in the package as a named `[]byte`. -/
structure PrivKeySecp256k1 where
  bz : Bytes
  deriving DecidableEq, Repr

/-- Interface `tmcrypto.PrivKey` as returned by the keygen function: `nil` or a
`PrivKeySecp256k1`. -/
abbrev PrivKey := Option PrivKeySecp256k1

/-! ## Imported functions -/

/-- The imported functions that do not concern the curve.
`hmacSha512 key msg` is HMAC over SHA-512, whose output has `sha512.Size = 64` bytes. -/
structure Primitives where
  NewSeedWithErrorChecking : String → String → Bytes × Option Error
  hmacSha512 : Bytes → Bytes → { h : Bytes // h.length = 64 }
  StdDeriveKey : String → String → String → SigningAlgo → Bytes × Option Error

/-- The imported curve functions `ethcrypto.ToECDSA` and `ethcrypto.FromECDSA`;
a `*ecdsa.PrivateKey` is `none` when `nil`. -/
structure Curve where
  PrivateKey : Type
  ToECDSA : Bytes → Option PrivateKey × Option Error
  FromECDSA : Option PrivateKey → Bytes

/-- A running `hmac.New(sha512.New, key)`: the key and what has been written so far. -/
structure HMAC where
  sum512 : Bytes → Bytes → { h : Bytes // h.length = 64 }
  key : Bytes
  written : Bytes

/-- Go `hmac.New(sha512.New, key)`. -/
def hmac.New (sum512 : Bytes → Bytes → { h : Bytes // h.length = 64 }) (key : Bytes) : HMAC :=
  { sum512 := sum512, key := key, written := [] }

/-- Go `mac.Write(p)`: adds `p` to the running hash; a `hash.Hash` never returns an error. -/
def HMAC.Write (mac : HMAC) (p : Bytes) : HMAC × Nat × Option Error :=
  ({ mac with written := mac.written ++ p }, p.length, none)

/-- Go `mac.Sum(b)`: appends the current MAC to `b`. -/
def HMAC.Sum (mac : HMAC) (b : Bytes) : Bytes :=
  b ++ (mac.sum512 mac.key mac.written).val

/-! ## The package `crypto` -/

/-- Function `DeriveSecp256k1` of `crypto/algorithm.go`. -/
def DeriveSecp256k1 (P : Primitives) (C : Curve)
    (mnemonic bip39Passphrase _hdPath : String) : Bytes × Option Error :=
  match P.NewSeedWithErrorChecking mnemonic bip39Passphrase with
  | (_, some err) => ([], some err)
  | (seed, none) =>
    -- HMAC the seed to produce the private key and chain code
    let mac := hmac.New P.hmacSha512 (stringBytes "Bitcoin seed")
    match mac.Write seed with
    | (_, _, some err) => ([], some err)
    | (mac, _, none) =>
      let seed := mac.Sum []
      match C.ToECDSA (seed.take 32) with
      | (_, some err) => ([], some err)
      | (priv, none) =>
        let derivedKey := PrivKeySecp256k1.mk (C.FromECDSA priv)
        (derivedKey.bz, none)

/-- Function `DeriveKey` of `crypto/algorithm.go`. -/
def DeriveKey (P : Primitives) (C : Curve)
    (mnemonic bip39Passphrase hdPath : String) (algo : SigningAlgo) : Bytes × Option Error :=
  if algo = keyring.Secp256k1 then
    P.StdDeriveKey mnemonic bip39Passphrase hdPath algo
  else if algo = EthSecp256k1 then
    DeriveSecp256k1 P C mnemonic bip39Passphrase hdPath
  else
    ([], errors.Wrap (some keyring.ErrUnsupportedSigningAlgo) algo)

/-- Function `EthermintKeygenFunc` of `crypto/algorithm.go`; the error is
`fmt.Errorf("signing algorithm must be %s, got %s", EthSecp256k1, algo)`. -/
def EthermintKeygenFunc (bz : Bytes) (algo : SigningAlgo) : PrivKey × Option Error :=
  if algo ≠ EthSecp256k1 then
    (none, some (Error.new ("signing algorithm must be " ++ EthSecp256k1 ++ ", got " ++ algo)))
  else
    (some (PrivKeySecp256k1.mk bz), none)

/-- The keyring's option record, which the `With...` options fill in. -/
structure keyring.kbOptions where
  keygenFunc : Bytes → SigningAlgo → PrivKey × Option Error
  deriveFunc : String → String → String → SigningAlgo → Bytes × Option Error
  supportedAlgos : List SigningAlgo
  supportedAlgosLedger : List SigningAlgo

/-- Type `keyring.KeybaseOption`: a modification of the option record. -/
abbrev keyring.KeybaseOption := keyring.kbOptions → keyring.kbOptions

/-- Option `keyring.WithKeygenFunc`. -/
def keyring.WithKeygenFunc (f : Bytes → SigningAlgo → PrivKey × Option Error) :
    keyring.KeybaseOption := fun o => { o with keygenFunc := f }

/-- Option `keyring.WithDeriveFunc`. -/
def keyring.WithDeriveFunc
    (f : String → String → String → SigningAlgo → Bytes × Option Error) :
    keyring.KeybaseOption := fun o => { o with deriveFunc := f }

/-- Option `keyring.WithSupportedAlgos`. -/
def keyring.WithSupportedAlgos (algos : List SigningAlgo) : keyring.KeybaseOption :=
  fun o => { o with supportedAlgos := algos }

/-- Option `keyring.WithSupportedAlgosLedger`. -/
def keyring.WithSupportedAlgosLedger (algos : List SigningAlgo) : keyring.KeybaseOption :=
  fun o => { o with supportedAlgosLedger := algos }

/-- The keyring applies its options one after the other to its record. -/
def keyring.applyOptions (opts : List keyring.KeybaseOption) (o : keyring.kbOptions) :
    keyring.kbOptions := opts.foldl (fun acc f => f acc) o

/-- Function `EthSecp256k1Options` of `crypto/algorithm.go`. -/
def EthSecp256k1Options (P : Primitives) (C : Curve) : List keyring.KeybaseOption :=
  [ keyring.WithKeygenFunc EthermintKeygenFunc,
    keyring.WithDeriveFunc (DeriveKey P C),
    keyring.WithSupportedAlgos SupportedAlgorithms,
    keyring.WithSupportedAlgosLedger SupportedAlgorithms ]

/-! ## The curve functions, from their description -/

/-- Modelled from the spec: the curve order of secp256k1, a constant of the imported curve
package. -/
def secp256k1N : Nat :=
  0xFFFFFFFFFFFFFFFFFFFFFFFFFFFFFFFEBAAEDCE6AF48A03BBFD25E8CD0364141

/-- Big-endian value of a byte sequence (`big.Int.SetBytes`). -/
def beNat (b : Bytes) : Nat := b.foldl (fun acc x => acc * 256 + x.val) 0

/-- Big-endian encoding of `n` on exactly `width` bytes. -/
def bePadded : Nat → Nat → Bytes
  | 0, _ => []
  | width + 1, n => bePadded width (n / 256) ++ [Fin.ofNat (n % 256)]

/-- Modelled from the spec: `ethcrypto.ToECDSA` of go-ethereum, which is imported and not part
of the sources. The candidate is a fixed-length (32-byte) sequence read as a big-endian
scalar, and it is a valid private key when it is non-zero and less than the curve order.
The private key is represented by its scalar. -/
def ethcrypto.ToECDSA (d : Bytes) : Option Nat × Option Error :=
  if 8 * d.length ≠ 256 then
    (none, some (Error.new "invalid length, need 256 bits"))
  else if secp256k1N ≤ beNat d then
    (none, some (Error.new "invalid private key, >=N"))
  else if beNat d = 0 then
    (none, some (Error.new "invalid private key, zero or negative"))
  else
    (some (beNat d), none)

/-- Modelled from the spec: `ethcrypto.FromECDSA` of go-ethereum, which is imported and not
part of the sources. The canonical private-key representation is the scalar on a fixed
length of 32 bytes, big-endian; a `nil` key gives `nil`. -/
def ethcrypto.FromECDSA : Option Nat → Bytes
  | none => []
  | some D => bePadded 32 D

/-- Modelled from the spec: the secp256k1 instance of the curve functions. -/
def secp256k1 : Curve :=
  { PrivateKey := Nat, ToECDSA := ethcrypto.ToECDSA, FromECDSA := ethcrypto.FromECDSA }

/-- The first 32 bytes of HMAC-SHA512 with key `"Bitcoin seed"` over a seed. -/
def hmacPrefix32 (P : Primitives) (seed : Bytes) : Bytes :=
  (P.hmacSha512 (stringBytes "Bitcoin seed") seed).val.take 32

/-! ## Stand-ins for the imported functions, for concrete evaluation -/

/-- A stand-in seed generator: the empty mnemonic is rejected, any other mnemonic gives a seed
as long as the passphrase. -/
def demoSeed (mnemonic bip39Passphrase : String) : Bytes × Option Error :=
  if mnemonic = "" then ([], some (Error.new "Invalid mnenomic"))
  else (List.replicate bip39Passphrase.length 7, none)

/-- A stand-in keyed hash with 64 bytes of output: 32 bytes that depend on the length of the
message, followed by 32 bytes that depend on the length of the key. -/
def demoHmac (key msg : Bytes) : { h : Bytes // h.length = 64 } :=
  ⟨List.replicate 32 (Fin.ofNat (255 * msg.length)) ++ List.replicate 32 (Fin.ofNat key.length),
    by simp⟩

/-- A stand-in for the base keyring's derivation: the path is part of the result. -/
def demoStdDeriveKey (mnemonic _bip39Passphrase hdPath : String) (_algo : SigningAlgo) :
    Bytes × Option Error :=
  if mnemonic = "" then ([], some (Error.new "Invalid mnenomic"))
  else (List.replicate hdPath.length 1, none)

/-- A stand-in for the option record the keyring starts from. -/
def demoOptions : keyring.kbOptions :=
  { keygenFunc := fun _ _ => (none, none), deriveFunc := demoStdDeriveKey,
    supportedAlgos := [], supportedAlgosLedger := [] }

/-- The stand-ins together. -/
def demoPrimitives : Primitives :=
  { NewSeedWithErrorChecking := demoSeed, hmacSha512 := demoHmac, StdDeriveKey := demoStdDeriveKey }

/-! ## Lemmas -/

theorem stringBytes_bitcoin_seed :
    stringBytes "Bitcoin seed" = [66, 105, 116, 99, 111, 105, 110, 32, 115, 101, 101, 100] := by
  decide

theorem beNat_append_singleton (l : Bytes) (x : Byte) :
    beNat (l ++ [x]) = beNat l * 256 + x.val := by
  simp [beNat, List.foldl_append]

theorem bePadded_length (width n : Nat) : (bePadded width n).length = width := by
  induction width generalizing n with
  | zero => simp [bePadded]
  | succ w ih => simp [bePadded, ih]

theorem bePadded_beNat (l : Bytes) : bePadded l.length (beNat l) = l := by
  induction l using List.reverseRecOn with
  | nil => simp [bePadded]
  | append_singleton l x ih =>
    have hx : x.val < 256 := x.isLt
    have hdiv : (beNat l * 256 + x.val) / 256 = beNat l := by omega
    have hmod : (beNat l * 256 + x.val) % 256 = x.val := by omega
    have hfin : (Fin.ofNat x.val : Byte) = x := by
      apply Fin.ext
      simp [Fin.ofNat, Nat.mod_eq_of_lt hx]
    rw [List.length_append, List.length_singleton, beNat_append_singleton, bePadded, hdiv, hmod,
      ih, hfin]

theorem hmacPrefix32_length (P : Primitives) (seed : Bytes) :
    (hmacPrefix32 P seed).length = 32 := by
  simp [hmacPrefix32, (P.hmacSha512 (stringBytes "Bitcoin seed") seed).property]

/-- The body of `DeriveSecp256k1` with the write to the running hash carried out. -/
theorem DeriveSecp256k1_unfold (P : Primitives) (C : Curve)
    (mnemonic bip39Passphrase hdPath : String) :
    DeriveSecp256k1 P C mnemonic bip39Passphrase hdPath =
      match P.NewSeedWithErrorChecking mnemonic bip39Passphrase with
      | (_, some err) => ([], some err)
      | (seed, none) =>
        match C.ToECDSA (hmacPrefix32 P seed) with
        | (_, some err) => ([], some err)
        | (priv, none) => (C.FromECDSA priv, none) := by
  unfold DeriveSecp256k1
  rcases hs : P.NewSeedWithErrorChecking mnemonic bip39Passphrase with ⟨seed, _ | err⟩
  · simp [hmac.New, HMAC.Write, HMAC.Sum, hmacPrefix32]
  · simp

theorem DeriveKey_eth (P : Primitives) (C : Curve) (mnemonic bip39Passphrase hdPath : String) :
    DeriveKey P C mnemonic bip39Passphrase hdPath EthSecp256k1 =
      DeriveSecp256k1 P C mnemonic bip39Passphrase hdPath := by
  have h : EthSecp256k1 ≠ keyring.Secp256k1 := by decide
  simp [DeriveKey, h]

theorem DeriveSecp256k1_of_seed_error (P : Primitives) (C : Curve)
    (mnemonic bip39Passphrase hdPath : String) (s : Bytes) (e : Error)
    (hseed : P.NewSeedWithErrorChecking mnemonic bip39Passphrase = (s, some e)) :
    DeriveSecp256k1 P C mnemonic bip39Passphrase hdPath = ([], some e) := by
  unfold DeriveSecp256k1
  rw [hseed]

/-- The error of `DeriveSecp256k1` is the seed generator's error or an error of `ToECDSA`. -/
theorem DeriveSecp256k1_error_source (P : Primitives) (C : Curve)
    (mnemonic bip39Passphrase hdPath : String) :
    (DeriveSecp256k1 P C mnemonic bip39Passphrase hdPath).2 =
        (P.NewSeedWithErrorChecking mnemonic bip39Passphrase).2
      ∨ ∃ d : Bytes,
          (DeriveSecp256k1 P C mnemonic bip39Passphrase hdPath).2 = (C.ToECDSA d).2 := by
  rw [DeriveSecp256k1_unfold]
  rcases hs : P.NewSeedWithErrorChecking mnemonic bip39Passphrase with ⟨seed, _ | err⟩
  · right
    refine ⟨hmacPrefix32 P seed, ?_⟩
    simp only []
    rcases hc : C.ToECDSA (hmacPrefix32 P seed) with ⟨priv, _ | err⟩
    · rfl
    · rfl
  · left
    rfl

theorem isUnsupportedSigningAlgo_wrap (tag : String) :
    isUnsupportedSigningAlgo (errors.Wrap (some keyring.ErrUnsupportedSigningAlgo) tag)
      = true := by
  simp [isUnsupportedSigningAlgo, errors.Wrap, Error.wraps, keyring.ErrUnsupportedSigningAlgo]

theorem demoSeed_supported (mnemonic bip39Passphrase : String) :
    isUnsupportedSigningAlgo
      (demoPrimitives.NewSeedWithErrorChecking mnemonic bip39Passphrase).2 = false := by
  show isUnsupportedSigningAlgo (demoSeed mnemonic bip39Passphrase).2 = false
  unfold demoSeed
  split_ifs
  · decide
  · rfl

theorem demoStdDeriveKey_supported (mnemonic bip39Passphrase hdPath : String) :
    isUnsupportedSigningAlgo
      (demoPrimitives.StdDeriveKey mnemonic bip39Passphrase hdPath keyring.Secp256k1).2
      = false := by
  show isUnsupportedSigningAlgo
    (demoStdDeriveKey mnemonic bip39Passphrase hdPath keyring.Secp256k1).2 = false
  unfold demoStdDeriveKey
  split_ifs
  · decide
  · rfl

theorem ToECDSA_supported (d : Bytes) :
    isUnsupportedSigningAlgo (secp256k1.ToECDSA d).2 = false := by
  show isUnsupportedSigningAlgo (ethcrypto.ToECDSA d).2 = false
  unfold ethcrypto.ToECDSA
  split_ifs
  · decide
  · decide
  · decide
  · rfl

theorem ToECDSA_ok_iff (d : Bytes) :
    (ethcrypto.ToECDSA d).2 = none ↔
      d.length = 32 ∧ 0 < beNat d ∧ beNat d < secp256k1N := by
  unfold ethcrypto.ToECDSA
  split_ifs with h1 h2 h3 <;> simp <;> omega

theorem ToECDSA_fst (d : Bytes) (h : (ethcrypto.ToECDSA d).2 = none) :
    (ethcrypto.ToECDSA d).1 = some (beNat d) := by
  unfold ethcrypto.ToECDSA at h ⊢
  split_ifs at h ⊢ with h1 h2 h3
  all_goals simp at h ⊢

theorem ToECDSA_err_fst (d : Bytes) (h : (ethcrypto.ToECDSA d).2 ≠ none) :
    (ethcrypto.ToECDSA d).1 = none := by
  unfold ethcrypto.ToECDSA at h ⊢
  split_ifs at h ⊢ with h1 h2 h3 <;> simp at h ⊢

/-! ## Dispatch on the algorithm tag -/

/-- C9: for the standard tag `secp256k1`, `DeriveKey` returns exactly the result (bytes and
error) of the base keyring's `StdDeriveKey` on the same four arguments, the path passed
through unchanged; this holds whatever the other imported functions are. -/
theorem DeriveKey_secp256k1_eq_StdDeriveKey (P : Primitives) (C : Curve)
    (mnemonic bip39Passphrase hdPath : String) :
    DeriveKey P C mnemonic bip39Passphrase hdPath keyring.Secp256k1 =
      P.StdDeriveKey mnemonic bip39Passphrase hdPath keyring.Secp256k1 := by
  simp [DeriveKey]

/-- C2: with the tag `eth_secp256k1`, `DeriveKey` returns the same result (bytes and error)
for any two paths `p1` and `p2`; with `p1 = p2` this is the repeated call. -/
theorem DeriveKey_eth_ignores_hdPath (P : Primitives) (C : Curve)
    (mnemonic bip39Passphrase p1 p2 : String) :
    DeriveKey P C mnemonic bip39Passphrase p1 EthSecp256k1 =
      DeriveKey P C mnemonic bip39Passphrase p2 EthSecp256k1 := by
  rw [DeriveKey_eth, DeriveKey_eth]
  rfl

/-- C3: for a tag other than `secp256k1` and `eth_secp256k1`, `DeriveKey` returns no key
bytes and the error `errors.Wrap(keyring.ErrUnsupportedSigningAlgo, string(algo))`: its cause
is the keyring's unsupported-signing-algorithm error, its text starts with the tag, and the
result is the same whatever the derivation functions are. -/
theorem DeriveKey_unsupported (P : Primitives) (C : Curve)
    (mnemonic bip39Passphrase hdPath : String) (algo : SigningAlgo)
    (hstd : algo ≠ keyring.Secp256k1) (heth : algo ≠ EthSecp256k1) :
    DeriveKey P C mnemonic bip39Passphrase hdPath algo =
        ([], some (Error.wrap keyring.ErrUnsupportedSigningAlgo algo))
      ∧ (Error.wrap keyring.ErrUnsupportedSigningAlgo algo).wraps
          keyring.ErrUnsupportedSigningAlgo = true
      ∧ (Error.wrap keyring.ErrUnsupportedSigningAlgo algo).message =
          algo ++ ": " ++ keyring.ErrUnsupportedSigningAlgo.message
      ∧ ∀ (Q : Primitives) (D : Curve),
          DeriveKey Q D mnemonic bip39Passphrase hdPath algo =
            DeriveKey P C mnemonic bip39Passphrase hdPath algo := by
  refine ⟨?_, ?_, ?_, ?_⟩
  · simp [DeriveKey, hstd, heth, errors.Wrap]
  · simp [Error.wraps, keyring.ErrUnsupportedSigningAlgo]
  · simp [Error.message]
  · intro Q D
    simp [DeriveKey, hstd, heth]

theorem DeriveKey_unsupported_witness :
    ("ed25519" ≠ keyring.Secp256k1 ∧ "ed25519" ≠ EthSecp256k1)
      ∧ DeriveKey demoPrimitives secp256k1 "abandon" "" "m/44/60/0/0/0" "ed25519" =
          ([], some (Error.wrap keyring.ErrUnsupportedSigningAlgo "ed25519")) :=
  ⟨⟨by decide, by decide⟩,
    (DeriveKey_unsupported demoPrimitives secp256k1 "abandon" "" "m/44/60/0/0/0" "ed25519"
      (by decide) (by decide)).1⟩

/-! ## The keygen function -/

/-- C4: for a tag different from `eth_secp256k1`, `EthermintKeygenFunc` returns no key and an
error whose text is `signing algorithm must be eth_secp256k1, got ` followed by the received
tag, for every byte sequence. -/
theorem EthermintKeygenFunc_mismatch (bz : Bytes) (algo : SigningAlgo)
    (h : algo ≠ EthSecp256k1) :
    ∃ e : Error, EthermintKeygenFunc bz algo = (none, some e)
      ∧ e.message = "signing algorithm must be " ++ EthSecp256k1 ++ ", got " ++ algo := by
  refine ⟨Error.new ("signing algorithm must be " ++ EthSecp256k1 ++ ", got " ++ algo), ?_, ?_⟩
  · simp [EthermintKeygenFunc, h]
  · simp [Error.message]

theorem EthermintKeygenFunc_mismatch_witness :
    keyring.Secp256k1 ≠ EthSecp256k1
      ∧ ∃ e : Error, EthermintKeygenFunc [1, 2, 3] keyring.Secp256k1 = (none, some e)
          ∧ e.message =
            "signing algorithm must be " ++ EthSecp256k1 ++ ", got " ++ keyring.Secp256k1 :=
  ⟨by decide, EthermintKeygenFunc_mismatch [1, 2, 3] keyring.Secp256k1 (by decide)⟩

/-- C5: with the tag `eth_secp256k1`, `EthermintKeygenFunc` returns a `nil` error and the
`PrivKeySecp256k1` whose bytes are exactly the given bytes, for every byte sequence. -/
theorem EthermintKeygenFunc_eth (bz : Bytes) :
    EthermintKeygenFunc bz EthSecp256k1 = (some (PrivKeySecp256k1.mk bz), none)
      ∧ (PrivKeySecp256k1.mk bz).bz = bz := by
  simp [EthermintKeygenFunc]

/-! ## The Ethereum-compatible derivation -/

/-- C7: when the seed generator fails with error `e`, `DeriveSecp256k1` and `DeriveKey` with
the tag `eth_secp256k1` return no key bytes and the error `e`, for every path; the result is
the same for any other keyed hash and curve functions. -/
theorem DeriveSecp256k1_seed_error (P : Primitives) (C : Curve)
    (mnemonic bip39Passphrase hdPath : String) (s : Bytes) (e : Error)
    (hseed : P.NewSeedWithErrorChecking mnemonic bip39Passphrase = (s, some e)) :
    DeriveSecp256k1 P C mnemonic bip39Passphrase hdPath = ([], some e)
      ∧ DeriveKey P C mnemonic bip39Passphrase hdPath EthSecp256k1 = ([], some e)
      ∧ ∀ (Q : Primitives) (D : Curve),
          Q.NewSeedWithErrorChecking = P.NewSeedWithErrorChecking →
          DeriveSecp256k1 Q D mnemonic bip39Passphrase hdPath = ([], some e) := by
  have key : ∀ (Q : Primitives) (D : Curve),
      Q.NewSeedWithErrorChecking = P.NewSeedWithErrorChecking →
      DeriveSecp256k1 Q D mnemonic bip39Passphrase hdPath = ([], some e) := by
    intro Q D hQ
    unfold DeriveSecp256k1
    rw [hQ, hseed]
  refine ⟨key P C rfl, ?_, key⟩
  rw [DeriveKey_eth]
  exact key P C rfl

theorem DeriveSecp256k1_seed_error_witness :
    demoPrimitives.NewSeedWithErrorChecking "" "pw" = ([], some (Error.new "Invalid mnenomic"))
      ∧ DeriveSecp256k1 demoPrimitives secp256k1 "" "pw" "m/44/60/0/0/0" =
          ([], some (Error.new "Invalid mnenomic")) :=
  ⟨by decide,
    (DeriveSecp256k1_seed_error demoPrimitives secp256k1 "" "pw" "m/44/60/0/0/0" []
      (Error.new "Invalid mnenomic") (by decide)).1⟩

/-- C1: when the seed generator succeeds with seed `s` and the curve accepts the first 32
bytes of HMAC-SHA512 (key `Bitcoin seed`) of `s`, `DeriveSecp256k1` and `DeriveKey` with the
tag `eth_secp256k1` succeed and return the re-serialisation of exactly those 32 bytes; other
primitives with the same seed and the same first 32 bytes give the same result. -/
theorem DeriveSecp256k1_first32 (P : Primitives) (C : Curve)
    (mnemonic bip39Passphrase hdPath : String) (s : Bytes)
    (hseed : P.NewSeedWithErrorChecking mnemonic bip39Passphrase = (s, none))
    (hvalid : (C.ToECDSA (hmacPrefix32 P s)).2 = none) :
    DeriveSecp256k1 P C mnemonic bip39Passphrase hdPath =
        (C.FromECDSA (C.ToECDSA (hmacPrefix32 P s)).1, none)
      ∧ DeriveKey P C mnemonic bip39Passphrase hdPath EthSecp256k1 =
        (C.FromECDSA (C.ToECDSA (hmacPrefix32 P s)).1, none)
      ∧ ∀ Q : Primitives,
          Q.NewSeedWithErrorChecking mnemonic bip39Passphrase = (s, none) →
          hmacPrefix32 Q s = hmacPrefix32 P s →
          DeriveSecp256k1 Q C mnemonic bip39Passphrase hdPath =
            DeriveSecp256k1 P C mnemonic bip39Passphrase hdPath := by
  have key : ∀ Q : Primitives,
      Q.NewSeedWithErrorChecking mnemonic bip39Passphrase = (s, none) →
      hmacPrefix32 Q s = hmacPrefix32 P s →
      DeriveSecp256k1 Q C mnemonic bip39Passphrase hdPath =
        (C.FromECDSA (C.ToECDSA (hmacPrefix32 P s)).1, none) := by
    intro Q hQ hpre
    rw [DeriveSecp256k1_unfold, hQ]
    simp only [hpre]
    rcases hc : C.ToECDSA (hmacPrefix32 P s) with ⟨priv, _ | err⟩
    · rfl
    · rw [hc] at hvalid
      cases hvalid
  refine ⟨key P hseed rfl, ?_, ?_⟩
  · rw [DeriveKey_eth]
    exact key P hseed rfl
  · intro Q hQ hpre
    rw [key Q hQ hpre, key P hseed rfl]

theorem DeriveSecp256k1_first32_witness :
    (demoPrimitives.NewSeedWithErrorChecking "abandon" "pw" = ([7, 7], none)
      ∧ (secp256k1.ToECDSA (hmacPrefix32 demoPrimitives [7, 7])).2 = none)
      ∧ DeriveSecp256k1 demoPrimitives secp256k1 "abandon" "pw" "m/44/60/0/0/0" =
          (secp256k1.FromECDSA (secp256k1.ToECDSA (hmacPrefix32 demoPrimitives [7, 7])).1,
            none) :=
  ⟨⟨by decide, by decide⟩,
    (DeriveSecp256k1_first32 demoPrimitives secp256k1 "abandon" "pw" "m/44/60/0/0/0" [7, 7]
      (by decide) (by decide)).1⟩

/-! ## The derivation on the secp256k1 curve functions -/

/-- On the secp256k1 curve functions a derivation that passes the seed generator returns the
first 32 bytes of the keyed hash when they are a valid scalar, and the curve error if not. -/
theorem DeriveSecp256k1_secp256k1 (P : Primitives) (mnemonic bip39Passphrase hdPath : String)
    (s : Bytes) (hseed : P.NewSeedWithErrorChecking mnemonic bip39Passphrase = (s, none)) :
    DeriveSecp256k1 P secp256k1 mnemonic bip39Passphrase hdPath =
      if 0 < beNat (hmacPrefix32 P s) ∧ beNat (hmacPrefix32 P s) < secp256k1N then
        (hmacPrefix32 P s, none)
      else
        ([], (ethcrypto.ToECDSA (hmacPrefix32 P s)).2) := by
  have hlen := hmacPrefix32_length P s
  rw [DeriveSecp256k1_unfold, hseed]
  simp only [secp256k1]
  have hiff := ToECDSA_ok_iff (hmacPrefix32 P s)
  rcases hc : ethcrypto.ToECDSA (hmacPrefix32 P s) with ⟨priv, _ | err⟩
  · have h2 : (ethcrypto.ToECDSA (hmacPrefix32 P s)).2 = none := by rw [hc]
    have h1 := ToECDSA_fst _ h2
    rw [hc] at h1
    simp only at h1
    have hv := hiff.mp h2
    have hrt := bePadded_beNat (hmacPrefix32 P s)
    rw [hlen] at hrt
    rw [if_pos hv.2, h1]
    simp only [ethcrypto.FromECDSA, hrt]
  · have h2 : ¬ (ethcrypto.ToECDSA (hmacPrefix32 P s)).2 = none := by rw [hc]; simp
    have hv : ¬ (0 < beNat (hmacPrefix32 P s) ∧ beNat (hmacPrefix32 P s) < secp256k1N) :=
      fun h => h2 (hiff.mpr ⟨hlen, h⟩)
    rw [if_neg hv]

/-- C6: on the secp256k1 curve functions, whenever `DeriveSecp256k1` (which is `DeriveKey`
with the tag `eth_secp256k1`) returns a `nil` error, the returned bytes are 32 bytes long and
their big-endian value is non-zero and less than the group order; and whenever the first 32
bytes of the keyed hash are zero or not less than the group order, it returns no key bytes and
an error. -/
theorem DeriveSecp256k1_scalar_valid (P : Primitives)
    (mnemonic bip39Passphrase hdPath : String) :
    DeriveKey P secp256k1 mnemonic bip39Passphrase hdPath EthSecp256k1 =
        DeriveSecp256k1 P secp256k1 mnemonic bip39Passphrase hdPath
      ∧ ((DeriveSecp256k1 P secp256k1 mnemonic bip39Passphrase hdPath).2 = none →
          (DeriveSecp256k1 P secp256k1 mnemonic bip39Passphrase hdPath).1.length = 32
            ∧ 0 < beNat (DeriveSecp256k1 P secp256k1 mnemonic bip39Passphrase hdPath).1
            ∧ beNat (DeriveSecp256k1 P secp256k1 mnemonic bip39Passphrase hdPath).1
                < secp256k1N)
      ∧ ((beNat (hmacPrefix32 P (P.NewSeedWithErrorChecking mnemonic bip39Passphrase).1) = 0
            ∨ secp256k1N ≤
              beNat (hmacPrefix32 P (P.NewSeedWithErrorChecking mnemonic bip39Passphrase).1)) →
          (DeriveSecp256k1 P secp256k1 mnemonic bip39Passphrase hdPath).1 = []
            ∧ (DeriveSecp256k1 P secp256k1 mnemonic bip39Passphrase hdPath).2 ≠ none) := by
  refine ⟨DeriveKey_eth P secp256k1 mnemonic bip39Passphrase hdPath, ?_⟩
  rcases hs : P.NewSeedWithErrorChecking mnemonic bip39Passphrase with ⟨s, _ | e⟩
  · rw [DeriveSecp256k1_secp256k1 P mnemonic bip39Passphrase hdPath s hs]
    have hlen := hmacPrefix32_length P s
    have hiff := ToECDSA_ok_iff (hmacPrefix32 P s)
    by_cases hv : 0 < beNat (hmacPrefix32 P s) ∧ beNat (hmacPrefix32 P s) < secp256k1N
    · rw [if_pos hv]
      refine ⟨fun _ => ⟨hlen, hv⟩, fun hbad => ?_⟩
      exfalso
      simp only at hbad
      omega
    · rw [if_neg hv]
      have hne : (ethcrypto.ToECDSA (hmacPrefix32 P s)).2 ≠ none :=
        fun h => hv (hiff.mp h).2
      exact ⟨fun h => absurd h hne, fun _ => ⟨rfl, hne⟩⟩
  · rw [DeriveSecp256k1_of_seed_error P secp256k1 mnemonic bip39Passphrase hdPath s e hs]
    refine ⟨fun h => ?_, fun _ => ⟨rfl, ?_⟩⟩
    · cases h
    · simp

theorem DeriveSecp256k1_scalar_valid_witness :
    ((DeriveSecp256k1 demoPrimitives secp256k1 "abandon" "pw" "m/44/60/0/0/0").2 = none
      ∧ (DeriveSecp256k1 demoPrimitives secp256k1 "abandon" "pw" "m/44/60/0/0/0").1.length = 32)
    ∧ (secp256k1N ≤
          beNat (hmacPrefix32 demoPrimitives
            (demoPrimitives.NewSeedWithErrorChecking "abandon" "p").1)
      ∧ (DeriveSecp256k1 demoPrimitives secp256k1 "abandon" "p" "m/44/60/0/0/0").1 = [])
    ∧ (beNat (hmacPrefix32 demoPrimitives
            (demoPrimitives.NewSeedWithErrorChecking "abandon" "").1) = 0
      ∧ (DeriveSecp256k1 demoPrimitives secp256k1 "abandon" "" "m/44/60/0/0/0").2 ≠ none) :=
  ⟨⟨by decide,
      ((DeriveSecp256k1_scalar_valid demoPrimitives "abandon" "pw" "m/44/60/0/0/0").2.1
        (by decide)).1⟩,
    ⟨by decide,
      ((DeriveSecp256k1_scalar_valid demoPrimitives "abandon" "p" "m/44/60/0/0/0").2.2
        (Or.inr (by decide))).1⟩,
    ⟨by decide,
      ((DeriveSecp256k1_scalar_valid demoPrimitives "abandon" "" "m/44/60/0/0/0").2.2
        (Or.inl (by decide))).2⟩⟩

/-- C10: on the secp256k1 curve functions, a 32-byte sequence is accepted by `ToECDSA` exactly
when its big-endian value lies in `[1, N-1]`, and then `FromECDSA (ToECDSA b) = b` byte for
byte; hence whenever `DeriveSecp256k1` returns a `nil` error, it returns exactly the first 32
bytes of the keyed hash of the seed. -/
theorem FromECDSA_ToECDSA_id :
    (∀ b : Bytes, b.length = 32 →
        ((ethcrypto.ToECDSA b).2 = none ↔ (1 ≤ beNat b ∧ beNat b ≤ secp256k1N - 1))
          ∧ ((ethcrypto.ToECDSA b).2 = none →
              ethcrypto.FromECDSA (ethcrypto.ToECDSA b).1 = b))
      ∧ ∀ (P : Primitives) (mnemonic bip39Passphrase hdPath : String),
          (DeriveSecp256k1 P secp256k1 mnemonic bip39Passphrase hdPath).2 = none →
          (DeriveSecp256k1 P secp256k1 mnemonic bip39Passphrase hdPath).1 =
            hmacPrefix32 P (P.NewSeedWithErrorChecking mnemonic bip39Passphrase).1 := by
  constructor
  · intro b hlen
    have hiff := ToECDSA_ok_iff b
    have hN : 0 < secp256k1N := by decide
    constructor
    · rw [hiff]
      constructor
      · intro h
        omega
      · intro h
        exact ⟨hlen, by omega, by omega⟩
    · intro hacc
      have hrt := bePadded_beNat b
      rw [hlen] at hrt
      rw [ToECDSA_fst b hacc]
      exact hrt
  · intro P mnemonic bip39Passphrase hdPath
    rcases hs : P.NewSeedWithErrorChecking mnemonic bip39Passphrase with ⟨s, _ | e⟩
    · rw [DeriveSecp256k1_secp256k1 P mnemonic bip39Passphrase hdPath s hs]
      have hiff := ToECDSA_ok_iff (hmacPrefix32 P s)
      have hlen := hmacPrefix32_length P s
      by_cases hv : 0 < beNat (hmacPrefix32 P s) ∧ beNat (hmacPrefix32 P s) < secp256k1N
      · rw [if_pos hv]
        intro _
        rfl
      · rw [if_neg hv]
        intro h
        exact absurd (hiff.mp h).2 hv
    · rw [DeriveSecp256k1_of_seed_error P secp256k1 mnemonic bip39Passphrase hdPath s e hs]
      intro h
      cases h

theorem FromECDSA_ToECDSA_id_witness :
    ((List.replicate 31 0 ++ [5] : Bytes).length = 32
      ∧ (ethcrypto.ToECDSA (List.replicate 31 0 ++ [5])).2 = none
      ∧ ethcrypto.FromECDSA (ethcrypto.ToECDSA (List.replicate 31 0 ++ [5])).1 =
          List.replicate 31 0 ++ [5])
    ∧ ((DeriveSecp256k1 demoPrimitives secp256k1 "abandon" "pw" "m/44/60/0/0/0").2 = none
      ∧ (DeriveSecp256k1 demoPrimitives secp256k1 "abandon" "pw" "m/44/60/0/0/0").1 =
          hmacPrefix32 demoPrimitives
            (demoPrimitives.NewSeedWithErrorChecking "abandon" "pw").1) :=
  ⟨⟨by decide, by decide,
      (FromECDSA_ToECDSA_id.1 (List.replicate 31 0 ++ [5]) (by decide)).2 (by decide)⟩,
    ⟨by decide,
      FromECDSA_ToECDSA_id.2 demoPrimitives "abandon" "pw" "m/44/60/0/0/0" (by decide)⟩⟩

/-! ## What the options advertise -/

/-- C8, as stated, fails: `secp256k1` is in the list of supported algorithms that the options
install, and the keygen function installed by the same options returns no key and an error
for it. -/
theorem keygenFunc_rejects_advertised_secp256k1 :
    keyring.Secp256k1 ∈
        (keyring.applyOptions (EthSecp256k1Options demoPrimitives secp256k1)
          demoOptions).supportedAlgos
      ∧ (keyring.applyOptions (EthSecp256k1Options demoPrimitives secp256k1)
          demoOptions).keygenFunc [1, 2, 3] keyring.Secp256k1 =
        (none, some (Error.new "signing algorithm must be eth_secp256k1, got secp256k1")) := by
  constructor
  · decide
  · decide

/-- C8, amended: the options install the list `[eth_secp256k1, secp256k1]` (each tag once) for
the keyring and for the ledger. For every tag of the list the installed derivation function
returns the result of that tag's derivation strategy (`StdDeriveKey` for `secp256k1`,
`DeriveSecp256k1` for `eth_secp256k1`), and it never returns the unsupported-algorithm error,
in particular not the result of the default branch, as long as the imported functions it calls
(`StdDeriveKey` on the standard tag, the seed generator, `ToECDSA`) do not return that error
themselves. The installed keygen function constructs a key for `eth_secp256k1` only, and for
`secp256k1` returns no key and the tag-mismatch error. -/
theorem EthSecp256k1Options_registry (P : Primitives) (C : Curve) (o : keyring.kbOptions) :
    (keyring.applyOptions (EthSecp256k1Options P C) o).supportedAlgos =
        [EthSecp256k1, keyring.Secp256k1]
      ∧ (keyring.applyOptions (EthSecp256k1Options P C) o).supportedAlgosLedger =
        [EthSecp256k1, keyring.Secp256k1]
      ∧ ∀ tag ∈ (keyring.applyOptions (EthSecp256k1Options P C) o).supportedAlgos,
          (keyring.applyOptions (EthSecp256k1Options P C) o).supportedAlgos.count tag = 1
          ∧ (∀ mnemonic bip39Passphrase hdPath : String,
              (keyring.applyOptions (EthSecp256k1Options P C) o).deriveFunc
                  mnemonic bip39Passphrase hdPath tag =
                if tag = keyring.Secp256k1 then
                  P.StdDeriveKey mnemonic bip39Passphrase hdPath tag
                else
                  DeriveSecp256k1 P C mnemonic bip39Passphrase hdPath)
          ∧ ((∀ m p h : String,
                isUnsupportedSigningAlgo (P.StdDeriveKey m p h keyring.Secp256k1).2 = false) →
              (∀ m p : String,
                isUnsupportedSigningAlgo (P.NewSeedWithErrorChecking m p).2 = false) →
              (∀ d : Bytes, isUnsupportedSigningAlgo (C.ToECDSA d).2 = false) →
              ∀ mnemonic bip39Passphrase hdPath : String,
                isUnsupportedSigningAlgo
                    ((keyring.applyOptions (EthSecp256k1Options P C) o).deriveFunc
                      mnemonic bip39Passphrase hdPath tag).2 = false
                  ∧ DeriveKey P C mnemonic bip39Passphrase hdPath tag ≠
                      ([], errors.Wrap (some keyring.ErrUnsupportedSigningAlgo) tag))
          ∧ ∀ bz : Bytes,
              (keyring.applyOptions (EthSecp256k1Options P C) o).keygenFunc bz tag =
                if tag = EthSecp256k1 then
                  (some (PrivKeySecp256k1.mk bz), none)
                else
                  (none, some (Error.new
                    ("signing algorithm must be " ++ EthSecp256k1 ++ ", got " ++ tag))) := by
  refine ⟨rfl, rfl, ?_⟩
  intro tag htag
  have hne : EthSecp256k1 ≠ keyring.Secp256k1 := by decide
  have hcases : tag = EthSecp256k1 ∨ tag = keyring.Secp256k1 := by
    simpa [keyring.applyOptions, EthSecp256k1Options, keyring.WithSupportedAlgos,
      keyring.WithSupportedAlgosLedger, SupportedAlgorithms] using htag
  have hd : (keyring.applyOptions (EthSecp256k1Options P C) o).deriveFunc = DeriveKey P C := rfl
  have hk : (keyring.applyOptions (EthSecp256k1Options P C) o).keygenFunc =
      EthermintKeygenFunc := rfl
  have hl : (keyring.applyOptions (EthSecp256k1Options P C) o).supportedAlgos =
      [EthSecp256k1, keyring.Secp256k1] := rfl
  rw [hd, hk, hl]
  -- a result without the unsupported-algorithm error is not the default-branch result
  have hdefault : ∀ (r : Bytes × Option Error) (t : String),
      isUnsupportedSigningAlgo r.2 = false →
      r ≠ ([], errors.Wrap (some keyring.ErrUnsupportedSigningAlgo) t) := by
    intro r t hr heq
    rw [heq] at hr
    have hw := isUnsupportedSigningAlgo_wrap t
    simp only at hr
    rw [hw] at hr
    cases hr
  rcases hcases with h | h
  · subst h
    refine ⟨by decide, ?_, ?_, ?_⟩
    · intro mnemonic bip39Passphrase hdPath
      rw [DeriveKey_eth, if_neg hne]
    · intro _ hseed hcurve mnemonic bip39Passphrase hdPath
      have hres : isUnsupportedSigningAlgo
          (DeriveKey P C mnemonic bip39Passphrase hdPath EthSecp256k1).2 = false := by
        rw [DeriveKey_eth]
        rcases DeriveSecp256k1_error_source P C mnemonic bip39Passphrase hdPath with
          hsrc | ⟨d, hsrc⟩
        · rw [hsrc]
          exact hseed mnemonic bip39Passphrase
        · rw [hsrc]
          exact hcurve d
      exact ⟨hres, hdefault _ _ hres⟩
    · intro bz
      simp [EthermintKeygenFunc]
  · subst h
    refine ⟨by decide, ?_, ?_, ?_⟩
    · intro mnemonic bip39Passphrase hdPath
      simp [DeriveKey]
    · intro hstd _ _ mnemonic bip39Passphrase hdPath
      have hres : isUnsupportedSigningAlgo
          (DeriveKey P C mnemonic bip39Passphrase hdPath keyring.Secp256k1).2 = false := by
        have hdk : DeriveKey P C mnemonic bip39Passphrase hdPath keyring.Secp256k1 =
            P.StdDeriveKey mnemonic bip39Passphrase hdPath keyring.Secp256k1 := by
          simp [DeriveKey]
        rw [hdk]
        exact hstd mnemonic bip39Passphrase hdPath
      exact ⟨hres, hdefault _ _ hres⟩
    · intro bz
      rw [if_neg (Ne.symm hne)]
      simp [EthermintKeygenFunc, Ne.symm hne]

theorem EthSecp256k1Options_registry_witness :
    (keyring.Secp256k1 ∈
        (keyring.applyOptions (EthSecp256k1Options demoPrimitives secp256k1)
          demoOptions).supportedAlgos
      ∧ (∀ m p h : String,
          isUnsupportedSigningAlgo
            (demoPrimitives.StdDeriveKey m p h keyring.Secp256k1).2 = false)
      ∧ (∀ m p : String,
          isUnsupportedSigningAlgo (demoPrimitives.NewSeedWithErrorChecking m p).2 = false)
      ∧ (∀ d : Bytes, isUnsupportedSigningAlgo (secp256k1.ToECDSA d).2 = false))
      ∧ (∀ mnemonic bip39Passphrase hdPath : String,
          isUnsupportedSigningAlgo
              ((keyring.applyOptions (EthSecp256k1Options demoPrimitives secp256k1)
                demoOptions).deriveFunc mnemonic bip39Passphrase hdPath
                  keyring.Secp256k1).2 = false
            ∧ DeriveKey demoPrimitives secp256k1 mnemonic bip39Passphrase hdPath
                keyring.Secp256k1 ≠
                  ([], errors.Wrap (some keyring.ErrUnsupportedSigningAlgo)
                    keyring.Secp256k1))
      ∧ ∀ bz : Bytes,
          (keyring.applyOptions (EthSecp256k1Options demoPrimitives secp256k1)
            demoOptions).keygenFunc bz keyring.Secp256k1 =
            if keyring.Secp256k1 = EthSecp256k1 then
              (some (PrivKeySecp256k1.mk bz), none)
            else
              (none, some (Error.new
                ("signing algorithm must be " ++ EthSecp256k1 ++ ", got "
                  ++ keyring.Secp256k1))) :=
  ⟨⟨by decide, demoStdDeriveKey_supported, demoSeed_supported, ToECDSA_supported⟩,
    ((EthSecp256k1Options_registry demoPrimitives secp256k1 demoOptions).2.2
      keyring.Secp256k1 (by decide)).2.2.1
      demoStdDeriveKey_supported demoSeed_supported ToECDSA_supported,
    ((EthSecp256k1Options_registry demoPrimitives secp256k1 demoOptions).2.2
      keyring.Secp256k1 (by decide)).2.2.2⟩

end crypto
